import Mathlib

/-! Verification development for the ASDD downloader repository.

The definitions below are a shallow embedding of the crawl controller,
progress ledger, retry policy and filename sanitization implemented in
download_asdd_selenium.py and download_asdd_data.py.  External
collaborators (the web site, the browser, the HTTP session, the file
system) are modelled as explicit oracle parameters; everything the
scripts themselves compute is translated directly from the Python
source. -/

namespace ASDD

/-- A dropdown option harvested from the site: a (value, display name)
pair, as built in get_districts / get_constituencies / get_parts. -/
structure Opt where
  value : String
  name : String
deriving DecidableEq, Repr

/-- The in-memory progress ledger: the dict read from and written to
download_progress.json, with the two lists self.progress holds. -/
structure Progress where
  completed : List String
  failed : List String
deriving DecidableEq, Repr

/-- The run statistics counters held in self.stats. -/
structure Stats where
  districts : Nat
  constituencies : Nat
  parts : Nat
  downloaded : Nat
  failed : Nat
deriving DecidableEq, Repr

/-- Observable events of a controller run: a Fetcher invocation with its
outcome (download_part_data returning True or False), a persistence of
the ledger (save_progress), or a resume skip of an already completed
leaf. -/
inductive Event where
  | fetch (key : String) (ok : Bool)
  | flush (p : Progress)
  | skip (key : String)
deriving DecidableEq, Repr

/-- Controller state threaded through the traversal: the ledger, the
statistics counters and the trace of events emitted so far. -/
structure SelState where
  progress : Progress
  stats : Stats
  trace : List Event
deriving DecidableEq, Repr

/-- The ledger key for one leaf, as built at line 349 of
download_asdd_selenium.py: district, constituency and part display
names joined by a vertical bar. -/
def leafKey (dname aname pname : String) : String :=
  dname ++ "|" ++ aname ++ "|" ++ pname

/-- Counts the Fetcher invocations recorded in a trace. -/
def countFetch (t : List Event) : Nat :=
  t.countP (fun e => match e with | Event.fetch _ _ => true | _ => false)

namespace ASDDSeleniumDownloader

/-- One iteration of the innermost loop of download_all
(download_asdd_selenium.py lines 344-367): build the ledger key, skip if
already completed, otherwise invoke the Fetcher, record the outcome in
the stats and the ledger, and persist the ledger.  The Fetcher
(download_part_data together with its internal stats updates) is the
oracle fetch, keyed by the leaf key. -/
def processPart (fetch : String → Bool) (dname aname : String)
    (st : SelState) (part : Opt) : SelState :=
  let key := leafKey dname aname part.name
  if key ∈ st.progress.completed then
    { st with trace := st.trace ++ [Event.skip key] }
  else
    let ok := fetch key
    let stats' :=
      if ok then { st.stats with downloaded := st.stats.downloaded + 1 }
      else { st.stats with failed := st.stats.failed + 1 }
    let progress' :=
      if ok then { st.progress with completed := st.progress.completed ++ [key] }
      else { st.progress with failed := st.progress.failed ++ [key] }
    { progress := progress', stats := stats',
      trace := st.trace ++ [Event.fetch key ok, Event.flush progress'] }

/-- One iteration of the constituency loop: enumerate the parts of the
constituency, add their number to the parts counter, then process each
part in order. -/
def processAC (fetch : String → Bool) (parts : String → List Opt)
    (dname : String) (st : SelState) (ac : Opt) : SelState :=
  (parts ac.value).foldl (processPart fetch dname ac.name)
    { st with stats := { st.stats with parts := st.stats.parts + (parts ac.value).length } }

/-- One iteration of the district loop: enumerate the constituencies of
the district, add their number to the constituencies counter, then
process each constituency in order. -/
def processDistrict (fetch : String → Bool) (cons parts : String → List Opt)
    (st : SelState) (d : Opt) : SelState :=
  (cons d.value).foldl (processAC fetch parts d.name)
    { st with stats := { st.stats with constituencies := st.stats.constituencies + (cons d.value).length } }

/-- download_all of download_asdd_selenium.py without a test-district
filter: the district counter is set to the number of districts found
(inside get_districts), every other counter starts at zero, and the
three-level traversal is run from the loaded ledger. -/
def download_all (fetch : String → Bool) (districts : List Opt)
    (cons parts : String → List Opt) (p0 : Progress) : SelState :=
  districts.foldl (processDistrict fetch cons parts)
    { progress := p0,
      stats := { districts := districts.length, constituencies := 0,
                 parts := 0, downloaded := 0, failed := 0 },
      trace := [] }

end ASDDSeleniumDownloader

/-- A JSON document, as produced by json.dump and consumed by
json.load; only the constructors the ledger file uses are modelled. -/
inductive Json where
  | str (s : String)
  | arr (elems : List Json)
  | obj (fields : List (String × Json))

/-- The state of the progress file on disk: missing, present but not
deserializable, or holding a JSON document. -/
inductive FileState where
  | absent
  | malformed
  | doc (j : Json)

/-- The document save_progress writes: an object with the completed and
failed key lists. -/
def encodeProgress (p : Progress) : Json :=
  Json.obj [("completed", Json.arr (p.completed.map Json.str)),
            ("failed", Json.arr (p.failed.map Json.str))]

/-- Reads a JSON array of strings, as the controller does when it treats
progress fields as lists of string keys. -/
def decodeStringList : List Json → Option (List String)
  | [] => some []
  | Json.str s :: rest => (decodeStringList rest).map (fun l => s :: l)
  | _ => none

/-- Extracts the list of strings stored in a JSON value, if it is an
array of strings. -/
def decodeStrings : Json → Option (List String)
  | Json.arr xs => decodeStringList xs
  | _ => none

/-- Recovers a Progress record from a ledger document by reading its
completed and failed fields, mirroring the dict accesses
progress[completed] and progress[failed] in the controller. -/
def decodeProgress : Json → Option Progress
  | Json.obj fields =>
    match List.lookup "completed" fields, List.lookup "failed" fields with
    | some c, some f =>
      match decodeStrings c, decodeStrings f with
      | some cs, some fs => some { completed := cs, failed := fs }
      | _, _ => none
    | _, _ => none
  | _ => none

/-- The document load_progress builds when no progress file exists:
the dict with two empty lists (line 65 of download_asdd_selenium.py). -/
def emptyProgressDoc : Json :=
  Json.obj [("completed", Json.arr []), ("failed", Json.arr [])]

namespace ASDDSeleniumDownloader

/-- load_progress (download_asdd_selenium.py lines 60-65): if the file
exists, json.load it (raising if the contents cannot be parsed);
otherwise return the empty record. -/
def load_progress : FileState → Except Unit Json
  | FileState.absent => Except.ok emptyProgressDoc
  | FileState.malformed => Except.error ()
  | FileState.doc j => Except.ok j

/-- save_progress (lines 67-70): json.dump the current progress record
to the progress file. -/
def save_progress (p : Progress) : FileState :=
  FileState.doc (encodeProgress p)

/-- sanitize_filename (lines 377-382), on the character list of the
input string: replace every occurrence of each invalid character by an
underscore, then strip leading and trailing whitespace. -/
def replaceChar (l : List Char) (c : Char) : List Char :=
  l.map (fun x => if x = c then '_' else x)

/-- The nine filesystem-unsafe characters listed in the source. -/
def invalid_chars : List Char :=
  ['<', '>', ':', '"', '/', '\\', '|', '?', '*']

/-- Python str.strip on a character list: drop whitespace from both
ends. -/
def stripChars (l : List Char) : List Char :=
  (((l.dropWhile Char.isWhitespace).reverse).dropWhile Char.isWhitespace).reverse

/-- sanitize_filename: successive single-character replacements followed
by strip. -/
def sanitize_filename (l : List Char) : List Char :=
  stripChars (invalid_chars.foldl replaceChar l)

end ASDDSeleniumDownloader

namespace ASDDDownloader

/-- get_page (download_asdd_data.py lines 53-65), indexed by the number
of attempts still available.  The oracle gives each attempt's outcome:
some content for a successful GET, none for an exception.  The result
records the outcome (ok none models the loop falling through with no
attempts configured, error models the final re-raise), the number of
calls made and the list of backoff sleeps taken. -/
def get_page_go (responder : Nat → Option String) :
    Nat → Nat → Except Unit (Option String) × Nat × List Nat
  | _, 0 => (Except.ok none, 0, [])
  | attempt, rem + 1 =>
    match responder attempt with
    | some c => (Except.ok (some c), 1, [])
    | none =>
      if rem = 0 then (Except.error (), 1, [])
      else
        let r := get_page_go responder (attempt + 1) rem
        (r.1, r.2.1 + 1, 2 ^ attempt :: r.2.2)

/-- get_page starting from the first attempt. -/
def get_page (responder : Nat → Option String) (max_retries : Nat) :
    Except Unit (Option String) × Nat × List Nat :=
  get_page_go responder 0 max_retries

/-- The four candidate constituency endpoints of get_constituencies
(lines 104-109), by index. -/
def endpoints : List Nat := [0, 1, 2, 3]

/-- The endpoint loop of get_constituencies (lines 111-125).  The oracle
maps an endpoint index and a call number to the response: some data for
an HTTP 200 whose body parses to a list (possibly empty), none for any
failure.  Each endpoint is posted to once; a 200 response whose list is
empty falls through to the next endpoint.  The call log records every
(endpoint, call number) pair issued. -/
def gc_go (behavior : Nat → Nat → Option (List Opt)) :
    List Nat → List Opt × List (Nat × Nat)
  | [] => ([], [])
  | e :: rest =>
    match behavior e 0 with
    | some data =>
      if data.isEmpty then
        let r := gc_go behavior rest
        (r.1, (e, 0) :: r.2)
      else (data, [(e, 0)])
    | none =>
      let r := gc_go behavior rest
      (r.1, (e, 0) :: r.2)

/-- get_constituencies over the fixed endpoint list. -/
def get_constituencies (behavior : Nat → Nat → Option (List Opt)) :
    List Opt × List (Nat × Nat) :=
  gc_go behavior endpoints

/-- download_file (lines 160-176) against a file-system modelled as an
association list from paths to contents: get_page the URL with the
default three retries; on any failure return False leaving the file
system untouched; on success write the fetched content to the
destination and return True. -/
def download_file (responder : Nat → Option String)
    (fs : List (String × String)) (path : String) :
    Bool × List (String × String) :=
  match (get_page responder 3).1 with
  | Except.ok (some c) => (true, (path, c) :: fs)
  | _ => (false, fs)

/-- The download URL built at line 226. -/
def mkUrl (dcode accode partno : String) : String :=
  "/asd_download.php?district=" ++ dcode ++ "&ac=" ++ accode ++ "&part=" ++ partno

/-- One part iteration of download_all (lines 221-236): download the
constructed URL and count the outcome. -/
def data_process_part (fetchOk : String → Bool) (dcode accode : String)
    (stats : Stats) (part : Opt) : Stats :=
  if fetchOk (mkUrl dcode accode part.value) then
    { stats with downloaded := stats.downloaded + 1 }
  else
    { stats with failed := stats.failed + 1 }

/-- One constituency iteration (lines 207-236): enumerate parts, count
them, process each. -/
def data_process_ac (fetchOk : String → Bool)
    (parts : String → String → List Opt) (dcode : String)
    (stats : Stats) (ac : Opt) : Stats :=
  let ps := parts dcode ac.value
  ps.foldl (data_process_part fetchOk dcode ac.value)
    { stats with parts := stats.parts + ps.length }

/-- One district iteration (lines 191-236): enumerate constituencies,
count them, process each. -/
def data_process_district (fetchOk : String → Bool)
    (cons : String → List Opt) (parts : String → String → List Opt)
    (stats : Stats) (d : Opt) : Stats :=
  let cs := cons d.value
  cs.foldl (data_process_ac fetchOk parts d.value)
    { stats with constituencies := stats.constituencies + cs.length }

/-- Fresh statistics at controller start. -/
def initStats : Stats :=
  { districts := 0, constituencies := 0, parts := 0, downloaded := 0, failed := 0 }

/-- scrape_direct_links (lines 240-283): download every direct link
found on the page, counting successes and failures. -/
def scrape_direct_links (fetchOk : String → Bool) (links : List Opt)
    (stats : Stats) : Stats :=
  links.foldl
    (fun s l =>
      if fetchOk l.value then { s with downloaded := s.downloaded + 1 }
      else { s with failed := s.failed + 1 })
    stats

/-- The outcome of a full run of download_all in download_asdd_data.py:
the final statistics and whether the direct-link fallback was taken. -/
structure DataResult where
  stats : Stats
  usedFallback : Bool
deriving DecidableEq, Repr

/-- download_all (lines 178-238): if the district enumeration is empty,
log, run scrape_direct_links and return; otherwise set the district
counter and run the three-level loop.  The Except codomain is the
ambient Python exception channel; this function handles every failure
of its collaborators internally and never raises. -/
def download_all (districts : List Opt) (cons : String → List Opt)
    (parts : String → String → List Opt) (fetchOk : String → Bool)
    (links : List Opt) : Except String DataResult :=
  if districts.isEmpty then
    Except.ok { stats := scrape_direct_links fetchOk links initStats,
                usedFallback := true }
  else
    Except.ok
      { stats := districts.foldl (data_process_district fetchOk cons parts)
          { initStats with districts := districts.length },
        usedFallback := false }

end ASDDDownloader

/-- Preservation of a predicate along a left fold, with access to list
membership of the processed element. -/
theorem foldl_pres_mem {α : Type u} {σ : Type v} (f : σ → α → σ) (P : σ → Prop) :
    ∀ l : List α, (∀ st a, a ∈ l → P st → P (f st a)) →
      ∀ st : σ, P st → P (l.foldl f st) := by
  intro l
  induction l with
  | nil => intro _ st h; exact h
  | cons x xs ih =>
    intro hstep st h
    exact ih (fun st' a ha hp => hstep st' a (List.mem_cons_of_mem _ ha) hp)
      (f st x) (hstep st x (List.mem_cons_self _ _) h)

/-- A property established by one fold step and preserved by all later
ones holds of the fold for every element of the list. -/
theorem foldl_establish {α : Type u} {σ : Type v} (f : σ → α → σ)
    (Q : α → σ → Prop) (est : ∀ st a, Q a (f st a))
    (mono : ∀ st a b, Q b st → Q b (f st a)) :
    ∀ (l : List α) (st : σ) (a : α), a ∈ l → Q a (l.foldl f st) := by
  intro l
  induction l with
  | nil => intro st a ha; simp at ha
  | cons x xs ih =>
    intro st a ha
    rcases List.mem_cons.mp ha with h | h
    · subst h
      exact foldl_pres_mem f (Q a) xs (fun st' b _ => mono st' b a)
        (f st a) (est st a)
    · exact ih (f st x) a h

namespace ASDDSeleniumDownloader

/-- The resume branch: a leaf whose key is already completed only
appends a skip event; ledger and counters are untouched. -/
theorem processPart_skip (fetch : String → Bool) (dname aname : String)
    (st : SelState) (part : Opt)
    (h : leafKey dname aname part.name ∈ st.progress.completed) :
    processPart fetch dname aname st part
      = { st with trace := st.trace ++ [Event.skip (leafKey dname aname part.name)] } := by
  simp [processPart, h]

/-- The successful-fetch branch of the leaf loop. -/
theorem processPart_ok (fetch : String → Bool) (dname aname : String)
    (st : SelState) (part : Opt)
    (h : leafKey dname aname part.name ∉ st.progress.completed)
    (hf : fetch (leafKey dname aname part.name) = true) :
    processPart fetch dname aname st part
      = { progress := { st.progress with
            completed := st.progress.completed ++ [leafKey dname aname part.name] },
          stats := { st.stats with downloaded := st.stats.downloaded + 1 },
          trace := st.trace ++ [Event.fetch (leafKey dname aname part.name) true,
            Event.flush { st.progress with
              completed := st.progress.completed ++ [leafKey dname aname part.name] }] } := by
  simp [processPart, h, hf]

/-- The failed-fetch branch of the leaf loop. -/
theorem processPart_fail (fetch : String → Bool) (dname aname : String)
    (st : SelState) (part : Opt)
    (h : leafKey dname aname part.name ∉ st.progress.completed)
    (hf : fetch (leafKey dname aname part.name) = false) :
    processPart fetch dname aname st part
      = { progress := { st.progress with
            failed := st.progress.failed ++ [leafKey dname aname part.name] },
          stats := { st.stats with failed := st.stats.failed + 1 },
          trace := st.trace ++ [Event.fetch (leafKey dname aname part.name) false,
            Event.flush { st.progress with
              failed := st.progress.failed ++ [leafKey dname aname part.name] }] } := by
  simp [processPart, h, hf]

/-- Completed keys are never removed by a leaf step. -/
theorem processPart_mem_completed (fetch : String → Bool) (dname aname : String)
    (st : SelState) (part : Opt) (k : String)
    (hk : k ∈ st.progress.completed) :
    k ∈ (processPart fetch dname aname st part).progress.completed := by
  by_cases h : leafKey dname aname part.name ∈ st.progress.completed
  · rw [processPart_skip fetch dname aname st part h]; exact hk
  · cases hf : fetch (leafKey dname aname part.name) with
    | true =>
      rw [processPart_ok fetch dname aname st part h hf]
      exact List.mem_append_left _ hk
    | false =>
      rw [processPart_fail fetch dname aname st part h hf]
      exact hk

/-- Completed keys are never removed by a constituency step. -/
theorem processAC_mem_completed (fetch : String → Bool)
    (parts : String → List Opt) (dname : String) (st : SelState) (ac : Opt)
    (k : String) (hk : k ∈ st.progress.completed) :
    k ∈ (processAC fetch parts dname st ac).progress.completed := by
  unfold processAC
  apply foldl_pres_mem (processPart fetch dname ac.name)
    (fun s => k ∈ s.progress.completed) (parts ac.value)
    (fun st' a _ h => processPart_mem_completed fetch dname ac.name st' a k h)
  exact hk

/-- Completed keys are never removed by a district step. -/
theorem processDistrict_mem_completed (fetch : String → Bool)
    (cons parts : String → List Opt) (st : SelState) (d : Opt)
    (k : String) (hk : k ∈ st.progress.completed) :
    k ∈ (processDistrict fetch cons parts st d).progress.completed := by
  unfold processDistrict
  apply foldl_pres_mem (processAC fetch parts d.name)
    (fun s => k ∈ s.progress.completed) (cons d.value)
    (fun st' a _ h => processAC_mem_completed fetch parts d.name st' a k h)
  exact hk

/-- After a leaf step whose fetch succeeds, the leaf's key is
completed. -/
theorem processPart_covers (fetch : String → Bool) (dname aname : String)
    (st : SelState) (part : Opt)
    (hf : fetch (leafKey dname aname part.name) = true) :
    leafKey dname aname part.name
      ∈ (processPart fetch dname aname st part).progress.completed := by
  by_cases h : leafKey dname aname part.name ∈ st.progress.completed
  · rw [processPart_skip fetch dname aname st part h]; exact h
  · rw [processPart_ok fetch dname aname st part h hf]
    exact List.mem_append_right _ (List.mem_singleton.mpr rfl)

/-- After a constituency step under an always-succeeding Fetcher, every
leaf key of the constituency is completed. -/
theorem processAC_covers (fetch : String → Bool) (parts : String → List Opt)
    (dname : String) (st : SelState) (ac : Opt)
    (hall : ∀ k, fetch k = true) :
    ∀ p ∈ parts ac.value,
      leafKey dname ac.name p.name
        ∈ (processAC fetch parts dname st ac).progress.completed := by
  intro p hp
  unfold processAC
  exact foldl_establish (processPart fetch dname ac.name)
    (fun p' s => leafKey dname ac.name p'.name ∈ s.progress.completed)
    (fun st' a => processPart_covers fetch dname ac.name st' a (hall _))
    (fun st' a b hb => processPart_mem_completed fetch dname ac.name st' a _ hb)
    (parts ac.value) _ p hp

/-- After a district step under an always-succeeding Fetcher, every
leaf key below the district is completed. -/
theorem processDistrict_covers (fetch : String → Bool)
    (cons parts : String → List Opt) (st : SelState) (d : Opt)
    (hall : ∀ k, fetch k = true) :
    ∀ ac ∈ cons d.value, ∀ p ∈ parts ac.value,
      leafKey d.name ac.name p.name
        ∈ (processDistrict fetch cons parts st d).progress.completed := by
  intro ac hac
  unfold processDistrict
  exact foldl_establish (processAC fetch parts d.name)
    (fun ac' s => ∀ p ∈ parts ac'.value,
      leafKey d.name ac'.name p.name ∈ s.progress.completed)
    (fun st' a => processAC_covers fetch parts d.name st' a hall)
    (fun st' a b hb p hp =>
      processAC_mem_completed fetch parts d.name st' a _ (hb p hp))
    (cons d.value) _ ac hac

/-- After a full run under an always-succeeding Fetcher, every leaf key
of the traversal is completed. -/
theorem download_all_covers (fetch : String → Bool) (districts : List Opt)
    (cons parts : String → List Opt) (p0 : Progress)
    (hall : ∀ k, fetch k = true) :
    ∀ d ∈ districts, ∀ ac ∈ cons d.value, ∀ p ∈ parts ac.value,
      leafKey d.name ac.name p.name
        ∈ (download_all fetch districts cons parts p0).progress.completed := by
  intro d hd
  unfold download_all
  exact foldl_establish (processDistrict fetch cons parts)
    (fun d' s => ∀ ac ∈ cons d'.value, ∀ p ∈ parts ac.value,
      leafKey d'.name ac.name p.name ∈ s.progress.completed)
    (fun st' a => processDistrict_covers fetch cons parts st' a hall)
    (fun st' a b hb ac hac p hp =>
      processDistrict_mem_completed fetch cons parts st' a _ (hb ac hac p hp))
    districts _ d hd

/-- countFetch distributes over trace concatenation. -/
theorem countFetch_append (t1 t2 : List Event) :
    countFetch (t1 ++ t2) = countFetch t1 + countFetch t2 :=
  List.countP_append _ _ _

/-- A run whose every leaf key is already completed performs no Fetcher
invocation and leaves the ledger unchanged. -/
theorem download_all_no_fetch (fetch : String → Bool) (districts : List Opt)
    (cons parts : String → List Opt) (q : Progress)
    (hcov : ∀ d ∈ districts, ∀ ac ∈ cons d.value, ∀ p ∈ parts ac.value,
        leafKey d.name ac.name p.name ∈ q.completed) :
    countFetch (download_all fetch districts cons parts q).trace = 0 ∧
    (download_all fetch districts cons parts q).progress = q := by
  have main : (download_all fetch districts cons parts q).progress = q ∧
      countFetch (download_all fetch districts cons parts q).trace = 0 := by
    unfold download_all
    apply foldl_pres_mem (processDistrict fetch cons parts)
      (fun s => s.progress = q ∧ countFetch s.trace = 0) districts
    · intro st d hd hP
      unfold processDistrict
      apply foldl_pres_mem (processAC fetch parts d.name)
        (fun s => s.progress = q ∧ countFetch s.trace = 0) (cons d.value)
      · intro st2 ac hac hP2
        unfold processAC
        apply foldl_pres_mem (processPart fetch d.name ac.name)
          (fun s => s.progress = q ∧ countFetch s.trace = 0) (parts ac.value)
        · intro st3 p hp hP3
          have hk : leafKey d.name ac.name p.name ∈ st3.progress.completed := by
            rw [hP3.1]; exact hcov d hd ac hac p hp
          rw [processPart_skip fetch d.name ac.name st3 p hk]
          refine ⟨hP3.1, ?_⟩
          show countFetch (st3.trace ++ [Event.skip (leafKey d.name ac.name p.name)]) = 0
          rw [countFetch_append, hP3.2]
          rfl
        · exact hP2
      · exact hP
    · exact ⟨rfl, rfl⟩
  exact ⟨main.2, main.1⟩

end ASDDSeleniumDownloader

/-- C1: a leaf whose ledger key is already in the completed set is
skipped — the Fetcher is not invoked and neither the downloaded nor the
failed counter moves — and a second run sharing the ledger of a first
run whose Fetcher always succeeded performs zero Fetcher invocations. -/
theorem C1_resume_idempotence (fetch : String → Bool) (districts : List Opt)
    (cons parts : String → List Opt) (p0 : Progress) (dname aname : String)
    (st : SelState) (part : Opt)
    (hall : ∀ k, fetch k = true)
    (hmem : leafKey dname aname part.name ∈ st.progress.completed) :
    ASDDSeleniumDownloader.processPart fetch dname aname st part
      = { st with trace := st.trace ++ [Event.skip (leafKey dname aname part.name)] } ∧
    countFetch (ASDDSeleniumDownloader.download_all fetch districts cons parts
        (ASDDSeleniumDownloader.download_all fetch districts cons parts p0).progress).trace
      = 0 := by
  refine ⟨ASDDSeleniumDownloader.processPart_skip fetch dname aname st part hmem, ?_⟩
  exact (ASDDSeleniumDownloader.download_all_no_fetch fetch districts cons parts _
    (ASDDSeleniumDownloader.download_all_covers fetch districts cons parts p0 hall)).1

/-- C1 witness: a concrete one-leaf world with an already-completed key
and a concrete double run. -/
theorem C1_witness :
    ASDDSeleniumDownloader.processPart (fun _ => true) "D" "A"
        { progress := { completed := ["D|A|P"], failed := [] },
          stats := { districts := 0, constituencies := 0, parts := 0,
                     downloaded := 0, failed := 0 },
          trace := [] } { value := "3", name := "P" }
      = { progress := { completed := ["D|A|P"], failed := [] },
          stats := { districts := 0, constituencies := 0, parts := 0,
                     downloaded := 0, failed := 0 },
          trace := [Event.skip (leafKey "D" "A" "P")] } ∧
    countFetch (ASDDSeleniumDownloader.download_all (fun _ => true)
        [{ value := "1", name := "D" }] (fun _ => [{ value := "2", name := "A" }])
        (fun _ => [{ value := "3", name := "P" }])
        (ASDDSeleniumDownloader.download_all (fun _ => true)
          [{ value := "1", name := "D" }] (fun _ => [{ value := "2", name := "A" }])
          (fun _ => [{ value := "3", name := "P" }])
          { completed := [], failed := [] }).progress).trace = 0 :=
  C1_resume_idempotence _ _ _ _ _ _ _ _ _ (fun _ => rfl) (by decide)

namespace ASDDDownloader

/-- When every attempt raises, get_page exhausts its budget: the final
attempt re-raises and exactly as many calls as configured attempts were
made. -/
theorem get_page_go_allfail (responder : Nat → Option String)
    (hall : ∀ i, responder i = none) :
    ∀ rem attempt, 1 ≤ rem →
      (get_page_go responder attempt rem).1 = Except.error () ∧
      (get_page_go responder attempt rem).2.1 = rem := by
  intro rem
  induction rem with
  | zero => intro attempt h; exact absurd h (by simp)
  | succ r ih =>
    intro attempt _
    by_cases hr0 : r = 0
    · subst hr0
      simp [get_page_go, hall attempt]
    · have h1r : 1 ≤ r := Nat.one_le_iff_ne_zero.mpr hr0
      have ih2 := ih (attempt + 1) h1r
      simp only [get_page_go, hall attempt, if_neg hr0]
      exact ⟨ih2.1, by simp [ih2.2]⟩

/-- Every call the endpoint loop of get_constituencies issues is the
first call to its endpoint: there is no retry. -/
theorem gc_go_calls_zero (b : Nat → Nat → Option (List Opt)) :
    ∀ l : List Nat, ∀ e ∈ (gc_go b l).2, e.2 = 0 := by
  intro l
  induction l with
  | nil => intro e he; simp [gc_go] at he
  | cons x rest ih =>
    intro e he
    simp only [gc_go] at he
    cases hb : b x 0 with
    | none =>
      simp only [hb] at he
      rcases List.mem_cons.mp he with h | h
      · rw [h]
      · exact ih e h
    | some data =>
      simp only [hb] at he
      by_cases hd : data.isEmpty
      · simp only [hd, if_pos] at he
        rcases List.mem_cons.mp he with h | h
        · rw [h]
        · exact ih e h
      · simp only [hd] at he
        simp at he
        rw [he]

/-- The endpoints the loop of get_constituencies posts to form a
subsequence of the endpoint list: no endpoint is contacted twice. -/
theorem gc_go_endpoints_sublist (b : Nat → Nat → Option (List Opt)) :
    ∀ l : List Nat, ((gc_go b l).2.map Prod.fst).Sublist l := by
  intro l
  induction l with
  | nil => simp [gc_go]
  | cons x rest ih =>
    simp only [gc_go]
    cases hb : b x 0 with
    | none =>
      simp only [hb, List.map_cons]
      exact List.Sublist.cons₂ x ih
    | some data =>
      by_cases hd : data.isEmpty
      · simp only [hb, hd, if_pos, List.map_cons]
        exact List.Sublist.cons₂ x ih
      · simp only [hb, hd, List.map_cons, List.map_nil]
        exact List.Sublist.cons₂ x (List.nil_sublist rest)

end ASDDDownloader

/-- C3 counterexample: an Enumerator endpoint behavior that fails its
first two calls and succeeds from the third on — per the claim, such a
call should end successfully after exactly three attempts — yields an
empty constituency enumeration, each of the four candidate endpoints
having been called exactly once with no retry and no backoff. -/
theorem C3_counterexample :
    ASDDDownloader.get_constituencies
        (fun _ n => if n < 2 then none else some [{ value := "1", name := "AC" }])
      = ([], [(0, 0), (1, 0), (2, 0), (3, 0)]) := by
  rfl

/-- C3 amended: the retry-with-backoff policy governs get_page (used
for district discovery and file downloads): a page fetch that fails its
first two attempts and succeeds on the third ends successfully after
exactly 3 calls with backoff sleeps of 1 then 2 time units, and a fetch
that always fails raises after exactly max_retries calls; the
constituency endpoint loop, by contrast, issues exactly one call (call
number 0) to each candidate endpoint, never retrying any of them. -/
theorem C3_retry_backoff (responder responder2 : Nat → Option String)
    (c : String) (n : Nat) (behavior : Nat → Nat → Option (List Opt))
    (h0 : responder 0 = none) (h1 : responder 1 = none)
    (h2 : responder 2 = some c)
    (hall : ∀ i, responder2 i = none) (hn : 1 ≤ n) :
    ASDDDownloader.get_page responder 3 = (Except.ok (some c), 3, [1, 2]) ∧
    (ASDDDownloader.get_page responder2 n).1 = Except.error () ∧
    (ASDDDownloader.get_page responder2 n).2.1 = n ∧
    (∀ e ∈ (ASDDDownloader.get_constituencies behavior).2, e.2 = 0) ∧
    ((ASDDDownloader.get_constituencies behavior).2.map Prod.fst).Nodup := by
  refine ⟨?_, (ASDDDownloader.get_page_go_allfail responder2 hall n 0 hn).1,
    (ASDDDownloader.get_page_go_allfail responder2 hall n 0 hn).2,
    ASDDDownloader.gc_go_calls_zero behavior ASDDDownloader.endpoints,
    List.Nodup.sublist
      (ASDDDownloader.gc_go_endpoints_sublist behavior ASDDDownloader.endpoints)
      (by decide)⟩
  simp [ASDDDownloader.get_page, ASDDDownloader.get_page_go, h0, h1, h2]

/-- C3 witness: the amended retry statement at a concrete responder
that fails twice then succeeds, a concrete always-failing responder
with a budget of three attempts, and a concrete endpoint behavior. -/
theorem C3_witness :
    ASDDDownloader.get_page (fun i => if i < 2 then none else some "c") 3
      = (Except.ok (some "c"), 3, [1, 2]) ∧
    (ASDDDownloader.get_page (fun _ => none) 3).1 = Except.error () ∧
    (ASDDDownloader.get_page (fun _ => none) 3).2.1 = 3 ∧
    (∀ e ∈ (ASDDDownloader.get_constituencies (fun _ _ => none)).2, e.2 = 0) ∧
    ((ASDDDownloader.get_constituencies (fun _ _ => none)).2.map Prod.fst).Nodup :=
  C3_retry_backoff (fun i => if i < 2 then none else some "c") (fun _ => none)
    "c" 3 (fun _ _ => none) rfl rfl rfl (fun _ => rfl) (by decide)

namespace ASDDSeleniumDownloader

/-- The nine successive single-character replacements act as one
pointwise map over the characters of the input. -/
theorem fold_replace_eq_map :
    ∀ cs : List Char, '_' ∉ cs → ∀ l : List Char,
      cs.foldl replaceChar l = l.map (fun x => if x ∈ cs then '_' else x) := by
  intro cs
  induction cs with
  | nil => intro _ l; simp
  | cons c cs ih =>
    intro h l
    have h' : '_' ∉ cs := fun hc => h (List.mem_cons_of_mem _ hc)
    simp only [List.foldl_cons]
    rw [ih h' (replaceChar l c)]
    unfold replaceChar
    rw [List.map_map]
    apply List.map_congr_left
    intro x _
    by_cases hxc : x = c
    · subst hxc
      simp [h', List.mem_cons]
    · simp [Function.comp, hxc, List.mem_cons]

/-- stripChars is right-drop composed with left-drop of whitespace. -/
theorem stripChars_eq (l : List Char) :
    stripChars l
      = List.rdropWhile Char.isWhitespace (l.dropWhile Char.isWhitespace) := rfl

/-- The head surviving a dropWhile does not satisfy the predicate. -/
theorem head?_dropWhile_not {α : Type} (p : α → Bool) :
    ∀ (l : List α) (c : α), (l.dropWhile p).head? = some c → p c = false := by
  intro l
  induction l with
  | nil => intro c h; simp [List.dropWhile] at h
  | cons x xs ih =>
    intro c h
    by_cases hp : p x
    · rw [List.dropWhile_cons_of_pos hp] at h
      exact ih c h
    · rw [List.dropWhile_cons_of_neg hp] at h
      simp only [List.head?_cons, Option.some.injEq] at h
      subst h
      simpa using hp

/-- The last element surviving a rdropWhile does not satisfy the
predicate. -/
theorem getLast?_rdropWhile_not {α : Type} (p : α → Bool) (l : List α) (c : α)
    (h : (List.rdropWhile p l).getLast? = some c) : p c = false := by
  rw [List.rdropWhile, List.getLast?_reverse] at h
  exact head?_dropWhile_not p _ c h

/-- rdropWhile keeps the head of its input. -/
theorem head?_of_rdropWhile {α : Type} (p : α → Bool) (m : List α) (c : α)
    (h : (List.rdropWhile p m).head? = some c) : m.head? = some c := by
  rw [List.rdropWhile, List.head?_reverse] at h
  obtain ⟨t, ht⟩ := List.dropWhile_suffix (l := m.reverse) p
  have hm : m = (List.dropWhile p m.reverse).reverse ++ t.reverse := by
    have h2 := congrArg List.reverse ht
    simpa [List.reverse_append] using h2.symm
  rw [hm]
  have hdr : (List.dropWhile p m.reverse).reverse.head? = some c := by
    rw [List.head?_reverse]; exact h
  cases hd : (List.dropWhile p m.reverse).reverse with
  | nil => rw [hd] at hdr; simp at hdr
  | cons a as =>
    rw [hd] at hdr
    simp only [List.head?_cons, Option.some.injEq] at hdr
    simp [hdr]

/-- Every character of a rdropWhile result occurs in the input. -/
theorem mem_of_mem_rdropWhile {α : Type} (p : α → Bool) (m : List α) (x : α)
    (hx : x ∈ List.rdropWhile p m) : x ∈ m := by
  rw [List.rdropWhile, List.mem_reverse] at hx
  have h2 := (List.dropWhile_suffix p).subset hx
  rwa [List.mem_reverse] at h2

end ASDDSeleniumDownloader

/-- C9: sanitize_filename replaces every occurrence of each of the nine
filesystem-unsafe characters by an underscore and strips the ends, so
its result contains none of those characters and neither starts nor
ends with whitespace. -/
theorem C9_sanitize_filename (l : List Char) :
    ASDDSeleniumDownloader.invalid_chars.foldl ASDDSeleniumDownloader.replaceChar l
        = l.map (fun x => if x ∈ ASDDSeleniumDownloader.invalid_chars then '_' else x) ∧
    (∀ c ∈ ASDDSeleniumDownloader.sanitize_filename l,
        c ∉ ASDDSeleniumDownloader.invalid_chars) ∧
    (∀ c, (ASDDSeleniumDownloader.sanitize_filename l).head? = some c →
        c.isWhitespace = false) ∧
    (∀ c, (ASDDSeleniumDownloader.sanitize_filename l).getLast? = some c →
        c.isWhitespace = false) := by
  have hu : '_' ∉ ASDDSeleniumDownloader.invalid_chars := by decide
  refine ⟨ASDDSeleniumDownloader.fold_replace_eq_map _ hu l, ?_, ?_, ?_⟩
  · intro c hc hinv
    have hm : c ∈ ASDDSeleniumDownloader.invalid_chars.foldl
        ASDDSeleniumDownloader.replaceChar l := by
      have h1 := ASDDSeleniumDownloader.mem_of_mem_rdropWhile _ _ c
        (by rwa [← ASDDSeleniumDownloader.stripChars_eq])
      exact (List.dropWhile_suffix _).subset h1
    rw [ASDDSeleniumDownloader.fold_replace_eq_map _ hu l] at hm
    obtain ⟨y, _, hxy⟩ := List.mem_map.mp hm
    by_cases hy : y ∈ ASDDSeleniumDownloader.invalid_chars
    · rw [if_pos hy] at hxy
      rw [← hxy] at hinv
      exact hu hinv
    · rw [if_neg hy] at hxy
      rw [hxy] at hy
      exact hy hinv
  · intro c h
    have h1 : ((ASDDSeleniumDownloader.invalid_chars.foldl
          ASDDSeleniumDownloader.replaceChar l).dropWhile Char.isWhitespace).head?
        = some c :=
      ASDDSeleniumDownloader.head?_of_rdropWhile _ _ c
        (by rwa [← ASDDSeleniumDownloader.stripChars_eq])
    exact ASDDSeleniumDownloader.head?_dropWhile_not _ _ c h1
  · intro c h
    exact ASDDSeleniumDownloader.getLast?_rdropWhile_not _ _ c
      (by rwa [← ASDDSeleniumDownloader.stripChars_eq])

/-- C9 witness: the sanitized form of the spec's example label contains
no colon and evaluates concretely. -/
theorem C9_witness :
    ':' ∉ ASDDSeleniumDownloader.sanitize_filename
        (' ' :: 'A' :: 'C' :: ':' :: ' ' :: '1' :: '2' :: '/' :: '"' :: 'T' :: 'e' :: 's' :: 't' :: '"' :: ' ' :: []) :=
  fun h =>
    (C9_sanitize_filename _).2.1 ':' h (by decide)

/-! Ledger serialization lemmas. -/

theorem decodeStringList_encode (l : List String) :
    decodeStringList (l.map Json.str) = some l := by
  induction l with
  | nil => rfl
  | cons x xs ih => simp [decodeStringList, ih]

theorem decodeProgress_encodeProgress (p : Progress) :
    decodeProgress (encodeProgress p) = some p := by
  simp [decodeProgress, encodeProgress, List.lookup, decodeStrings,
    decodeStringList_encode]

/-- C5: load_progress returns the empty record (both key lists empty)
when no progress file exists, raises when the file exists but cannot be
deserialized, and returns the stored document otherwise. -/
theorem C5_ledger_load_behavior :
    ASDDSeleniumDownloader.load_progress FileState.absent = Except.ok emptyProgressDoc ∧
    decodeProgress emptyProgressDoc = some { completed := [], failed := [] } ∧
    ASDDSeleniumDownloader.load_progress FileState.malformed = Except.error () ∧
    ∀ j : Json, ASDDSeleniumDownloader.load_progress (FileState.doc j) = Except.ok j :=
  ⟨rfl, rfl, rfl, fun _ => rfl⟩

/-- C7: persisting a progress record with save_progress and loading it
back with load_progress recovers exactly the record that was saved, so
the completed and failed key sets after the round trip coincide with
those before it, whatever order the keys were inserted in. -/
theorem C7_ledger_round_trip (p : Progress) :
    (ASDDSeleniumDownloader.load_progress (ASDDSeleniumDownloader.save_progress p)).toOption.bind decodeProgress = some p ∧
    ((ASDDSeleniumDownloader.load_progress (ASDDSeleniumDownloader.save_progress p)).toOption.bind decodeProgress).map
        (fun q => (q.completed.toFinset, q.failed.toFinset))
      = some (p.completed.toFinset, p.failed.toFinset) := by
  have h : (ASDDSeleniumDownloader.load_progress (ASDDSeleniumDownloader.save_progress p)).toOption.bind decodeProgress = some p := by
    simp [ASDDSeleniumDownloader.load_progress, ASDDSeleniumDownloader.save_progress,
      Except.toOption, decodeProgress_encodeProgress]
  exact ⟨h, by rw [h]; rfl⟩

/-- C4 counterexample: with an empty district enumeration and one
direct download link on the page, download_all returns normally with
the fallback scraper having downloaded one file — the run is not
aborted with a DiscoveryFailure and does not propagate any error. -/
theorem C4_counterexample :
    ASDDDownloader.download_all [] (fun _ => []) (fun _ _ => [])
        (fun _ => true) [{ value := "x.pdf", name := "X" }]
      = Except.ok
          { stats := { districts := 0, constituencies := 0, parts := 0,
                       downloaded := 1, failed := 0 },
            usedFallback := true } := by
  rfl

/-- C4 amended: when enumerating districts yields an empty list,
download_all logs the condition and invokes the direct-link fallback
scraper, returning normally with its statistics; for every input the
function returns successfully, with the fallback taken exactly when the
district list is empty. -/
theorem C4_empty_discovery_fallback (cons : String → List Opt)
    (parts : String → String → List Opt) (fetchOk : String → Bool)
    (links : List Opt) :
    ASDDDownloader.download_all [] cons parts fetchOk links
      = Except.ok
          { stats := ASDDDownloader.scrape_direct_links fetchOk links ASDDDownloader.initStats,
            usedFallback := true } ∧
    ∀ districts : List Opt, ∃ r : ASDDDownloader.DataResult,
      ASDDDownloader.download_all districts cons parts fetchOk links = Except.ok r ∧
      r.usedFallback = districts.isEmpty := by
  constructor
  · rfl
  · intro districts
    cases districts with
    | nil => exact ⟨_, rfl, rfl⟩
    | cons d ds => exact ⟨_, rfl, rfl⟩

/-- C10: download_file returns False and leaves the file system
untouched whenever fetching the page fails, and writes the fetched
content to the destination path and returns True exactly when the fetch
succeeds, leaving every other path unchanged. -/
theorem C10_download_file_atomic (responder : Nat → Option String)
    (fs : List (String × String)) (path : String) :
    match (ASDDDownloader.get_page responder 3).1 with
    | Except.ok (some c) =>
        ASDDDownloader.download_file responder fs path = (true, (path, c) :: fs) ∧
        ((path, c) :: fs).lookup path = some c ∧
        ∀ q, q ≠ path → ((path, c) :: fs).lookup q = fs.lookup q
    | _ => ASDDDownloader.download_file responder fs path = (false, fs) := by
  rcases h : (ASDDDownloader.get_page responder 3).1 with e | v
  · simp [ASDDDownloader.download_file, h]
  · rcases v with _ | c
    · simp [ASDDDownloader.download_file, h]
    · refine ⟨by simp [ASDDDownloader.download_file, h], by simp [List.lookup], ?_⟩
      intro q hq
      have hb : (q == path) = false := by simp [hq]
      simp [List.lookup, hb]

/-- A trace segment in which every Fetcher outcome is immediately
followed by a flush of the ledger updated with exactly that outcome.
The first index is the ledger at the start of the segment, the last is
the ledger as most recently persisted, equal to the in-memory ledger at
every leaf boundary. -/
inductive FlushChain : Progress → List Event → Progress → Prop where
  | nil (p : Progress) : FlushChain p [] p
  | skipStep (p q : Progress) (k : String) (evts : List Event)
      (hk : k ∈ p.completed) (h : FlushChain p evts q) :
      FlushChain p (Event.skip k :: evts) q
  | okStep (p q : Progress) (k : String) (evts : List Event)
      (hk : k ∉ p.completed)
      (h : FlushChain { p with completed := p.completed ++ [k] } evts q) :
      FlushChain p (Event.fetch k true
        :: Event.flush { p with completed := p.completed ++ [k] } :: evts) q
  | failStep (p q : Progress) (k : String) (evts : List Event)
      (hk : k ∉ p.completed)
      (h : FlushChain { p with failed := p.failed ++ [k] } evts q) :
      FlushChain p (Event.fetch k false
        :: Event.flush { p with failed := p.failed ++ [k] } :: evts) q

/-- FlushChain segments compose. -/
theorem flushChain_append {e1 : List Event} :
    ∀ {p q : Progress}, FlushChain p e1 q →
    ∀ {e2 : List Event} {r : Progress}, FlushChain q e2 r →
      FlushChain p (e1 ++ e2) r := by
  intro p q h1
  induction h1 with
  | nil p' => intro e2 r h2; exact h2
  | skipStep p' q' k evts hk h ih =>
    intro e2 r h2
    exact FlushChain.skipStep _ _ _ _ hk (ih h2)
  | okStep p' q' k evts hk h ih =>
    intro e2 r h2
    exact FlushChain.okStep _ _ _ _ hk (ih h2)
  | failStep p' q' k evts hk h ih =>
    intro e2 r h2
    exact FlushChain.failStep _ _ _ _ hk (ih h2)

namespace ASDDSeleniumDownloader

/-- Each leaf step appends a well-formed flush block to the trace. -/
theorem processPart_chain (fetch : String → Bool) (dname aname : String)
    (st : SelState) (part : Opt) :
    ∃ Δ, (processPart fetch dname aname st part).trace = st.trace ++ Δ ∧
      FlushChain st.progress Δ (processPart fetch dname aname st part).progress := by
  by_cases h : leafKey dname aname part.name ∈ st.progress.completed
  · rw [processPart_skip fetch dname aname st part h]
    exact ⟨[Event.skip (leafKey dname aname part.name)], rfl,
      FlushChain.skipStep _ _ _ _ h (FlushChain.nil _)⟩
  · cases hf : fetch (leafKey dname aname part.name) with
    | true =>
      rw [processPart_ok fetch dname aname st part h hf]
      exact ⟨_, rfl, FlushChain.okStep _ _ _ _ h (FlushChain.nil _)⟩
    | false =>
      rw [processPart_fail fetch dname aname st part h hf]
      exact ⟨_, rfl, FlushChain.failStep _ _ _ _ h (FlushChain.nil _)⟩

/-- Folding flush-block steps yields a flush-block trace. -/
theorem foldl_chain {α : Type} (f : SelState → α → SelState)
    (hf : ∀ st a, ∃ Δ, (f st a).trace = st.trace ++ Δ ∧
      FlushChain st.progress Δ (f st a).progress) :
    ∀ (l : List α) (st : SelState),
      ∃ Δ, (l.foldl f st).trace = st.trace ++ Δ ∧
        FlushChain st.progress Δ (l.foldl f st).progress := by
  intro l
  induction l with
  | nil => intro st; exact ⟨[], by simp, FlushChain.nil _⟩
  | cons x xs ih =>
    intro st
    obtain ⟨Δ1, h1, c1⟩ := hf st x
    obtain ⟨Δ2, h2, c2⟩ := ih (f st x)
    refine ⟨Δ1 ++ Δ2, ?_, flushChain_append c1 c2⟩
    rw [List.foldl_cons, h2, h1, List.append_assoc]

/-- Each constituency step appends a well-formed flush block. -/
theorem processAC_chain (fetch : String → Bool) (parts : String → List Opt)
    (dname : String) (st : SelState) (ac : Opt) :
    ∃ Δ, (processAC fetch parts dname st ac).trace = st.trace ++ Δ ∧
      FlushChain st.progress Δ (processAC fetch parts dname st ac).progress := by
  unfold processAC
  exact foldl_chain (processPart fetch dname ac.name)
    (fun st' p => processPart_chain fetch dname ac.name st' p) (parts ac.value) _

/-- Each district step appends a well-formed flush block. -/
theorem processDistrict_chain (fetch : String → Bool)
    (cons parts : String → List Opt) (st : SelState) (d : Opt) :
    ∃ Δ, (processDistrict fetch cons parts st d).trace = st.trace ++ Δ ∧
      FlushChain st.progress Δ (processDistrict fetch cons parts st d).progress := by
  unfold processDistrict
  exact foldl_chain (processAC fetch parts d.name)
    (fun st' ac => processAC_chain fetch parts d.name st' ac) (cons d.value) _

/-- The trace of a full run is one flush chain from the loaded ledger
to the final ledger. -/
theorem download_all_chain (fetch : String → Bool) (districts : List Opt)
    (cons parts : String → List Opt) (p0 : Progress) :
    FlushChain p0 (download_all fetch districts cons parts p0).trace
      (download_all fetch districts cons parts p0).progress := by
  obtain ⟨Δ, h1, c⟩ := foldl_chain (processDistrict fetch cons parts)
    (fun st d => processDistrict_chain fetch cons parts st d) districts
    { progress := p0,
      stats := { districts := districts.length, constituencies := 0,
                 parts := 0, downloaded := 0, failed := 0 },
      trace := [] }
  unfold download_all
  rw [h1]
  exact c

end ASDDSeleniumDownloader

/-- In a flush chain, every Fetcher outcome is immediately followed by
a flush of a ledger that already records that outcome. -/
theorem flushChain_fetch_flush {e : List Event} :
    ∀ {p q : Progress}, FlushChain p e q →
    ∀ (i : Nat) (k : String) (ok : Bool), e[i]? = some (Event.fetch k ok) →
      ∃ pr, e[i + 1]? = some (Event.flush pr) ∧
        (ok = true → k ∈ pr.completed) ∧ (ok = false → k ∈ pr.failed) := by
  intro p q h
  induction h with
  | nil p' => intro i k ok hi; simp at hi
  | skipStep p' q' k' evts hk h ih =>
    intro i k ok hi
    cases i with
    | zero => simp at hi
    | succ j =>
      rw [List.getElem?_cons_succ] at hi
      obtain ⟨pr, h1, h2, h3⟩ := ih j k ok hi
      exact ⟨pr, by rw [List.getElem?_cons_succ]; exact h1, h2, h3⟩
  | okStep p' q' k' evts hk h ih =>
    intro i k ok hi
    cases i with
    | zero =>
      rw [List.getElem?_cons_zero] at hi
      have h2 := Option.some.inj hi
      injection h2 with ha hb
      subst ha
      subst hb
      refine ⟨{ p' with completed := p'.completed ++ [k'] },
        by rw [List.getElem?_cons_succ, List.getElem?_cons_zero], ?_, ?_⟩
      · intro _
        exact List.mem_append_right _ (List.mem_singleton.mpr rfl)
      · intro hfalse
        exact absurd hfalse (by decide)
    | succ j =>
      cases j with
      | zero =>
        rw [List.getElem?_cons_succ, List.getElem?_cons_zero] at hi
        simp at hi
      | succ m =>
        rw [List.getElem?_cons_succ, List.getElem?_cons_succ] at hi
        obtain ⟨pr, h1, h2, h3⟩ := ih m k ok hi
        refine ⟨pr, ?_, h2, h3⟩
        rw [List.getElem?_cons_succ, List.getElem?_cons_succ]
        exact h1
  | failStep p' q' k' evts hk h ih =>
    intro i k ok hi
    cases i with
    | zero =>
      rw [List.getElem?_cons_zero] at hi
      have h2 := Option.some.inj hi
      injection h2 with ha hb
      subst ha
      subst hb
      refine ⟨{ p' with failed := p'.failed ++ [k'] },
        by rw [List.getElem?_cons_succ, List.getElem?_cons_zero], ?_, ?_⟩
      · intro htrue
        exact absurd htrue (by decide)
      · intro _
        exact List.mem_append_right _ (List.mem_singleton.mpr rfl)
    | succ j =>
      cases j with
      | zero =>
        rw [List.getElem?_cons_succ, List.getElem?_cons_zero] at hi
        simp at hi
      | succ m =>
        rw [List.getElem?_cons_succ, List.getElem?_cons_succ] at hi
        obtain ⟨pr, h1, h2, h3⟩ := ih m k ok hi
        refine ⟨pr, ?_, h2, h3⟩
        rw [List.getElem?_cons_succ, List.getElem?_cons_succ]
        exact h1

/-- C2: the trace of every run is a flush chain from the loaded ledger
to the final ledger — after every terminal leaf outcome the updated
ledger is persisted before the next leaf is processed, so the persisted
ledger agrees with the in-memory ledger at every leaf boundary — and in
particular every Fetcher outcome event is immediately followed by a
flush event whose payload records that outcome. -/
theorem C2_flush_after_each_leaf (fetch : String → Bool) (districts : List Opt)
    (cons parts : String → List Opt) (p0 : Progress) :
    FlushChain p0
      (ASDDSeleniumDownloader.download_all fetch districts cons parts p0).trace
      (ASDDSeleniumDownloader.download_all fetch districts cons parts p0).progress ∧
    ∀ (i : Nat) (k : String) (ok : Bool),
      (ASDDSeleniumDownloader.download_all fetch districts cons parts p0).trace[i]?
          = some (Event.fetch k ok) →
      ∃ pr, (ASDDSeleniumDownloader.download_all fetch districts cons parts p0).trace[i + 1]?
          = some (Event.flush pr) ∧
        (ok = true → k ∈ pr.completed) ∧ (ok = false → k ∈ pr.failed) := by
  have h := ASDDSeleniumDownloader.download_all_chain fetch districts cons parts p0
  exact ⟨h, flushChain_fetch_flush h⟩

/-- C2 witness: in a concrete one-leaf run the fetch outcome at trace
index 0 is immediately followed by a flush recording it. -/
theorem C2_witness :
    ∃ pr, (ASDDSeleniumDownloader.download_all (fun _ => true)
        [{ value := "1", name := "D" }] (fun _ => [{ value := "2", name := "A" }])
        (fun _ => [{ value := "3", name := "P" }])
        { completed := [], failed := [] }).trace[0 + 1]?
      = some (Event.flush pr) ∧
      (true = true → "D|A|P" ∈ pr.completed) ∧
      (true = false → "D|A|P" ∈ pr.failed) :=
  (C2_flush_after_each_leaf (fun _ => true) [{ value := "1", name := "D" }]
    (fun _ => [{ value := "2", name := "A" }]) (fun _ => [{ value := "3", name := "P" }])
    { completed := [], failed := [] }).2 0 "D|A|P" true (by decide)

namespace ASDDSeleniumDownloader

/-- A key completed at run start stays completed and is never appended
to the failed list during the run. -/
theorem download_all_completed_stable (fetch : String → Bool)
    (districts : List Opt) (cons parts : String → List Opt) (p0 : Progress)
    (k : String) (h0 : k ∈ p0.completed) :
    k ∈ (download_all fetch districts cons parts p0).progress.completed ∧
    ((k ∈ (download_all fetch districts cons parts p0).progress.failed) ↔ k ∈ p0.failed) := by
  unfold download_all
  apply foldl_pres_mem (processDistrict fetch cons parts)
    (fun s => k ∈ s.progress.completed ∧ ((k ∈ s.progress.failed) ↔ k ∈ p0.failed))
    districts
  · intro st d _ hP
    unfold processDistrict
    apply foldl_pres_mem (processAC fetch parts d.name)
      (fun s => k ∈ s.progress.completed ∧ ((k ∈ s.progress.failed) ↔ k ∈ p0.failed))
      (cons d.value)
    · intro st2 ac _ hP2
      unfold processAC
      apply foldl_pres_mem (processPart fetch d.name ac.name)
        (fun s => k ∈ s.progress.completed ∧ ((k ∈ s.progress.failed) ↔ k ∈ p0.failed))
        (parts ac.value)
      · intro st3 p _ hP3
        by_cases h : leafKey d.name ac.name p.name ∈ st3.progress.completed
        · rw [processPart_skip fetch d.name ac.name st3 p h]
          exact hP3
        · cases hf : fetch (leafKey d.name ac.name p.name) with
          | true =>
            rw [processPart_ok fetch d.name ac.name st3 p h hf]
            exact ⟨List.mem_append_left _ hP3.1, hP3.2⟩
          | false =>
            rw [processPart_fail fetch d.name ac.name st3 p h hf]
            refine ⟨hP3.1, ?_⟩
            have hne : k ≠ leafKey d.name ac.name p.name :=
              fun he => h (he ▸ hP3.1)
            constructor
            · intro hmem
              rcases List.mem_append.mp hmem with hm | hm
              · exact hP3.2.mp hm
              · exact absurd (List.mem_singleton.mp hm) hne
            · intro hmem
              exact List.mem_append_left _ (hP3.2.mpr hmem)
      · exact hP2
    · exact hP
  · exact ⟨h0, Iff.rfl⟩

end ASDDSeleniumDownloader

/-- C6 counterexample: starting from a ledger in which the key is
recorded failed, a run whose fetch of that leaf succeeds appends the
key to the completed list without removing it from the failed list, so
the key is present in both sets — the claimed partition invariant does
not hold. -/
theorem C6_counterexample :
    "D|A|P" ∈ (ASDDSeleniumDownloader.download_all (fun _ => true)
        [{ value := "1", name := "D" }] (fun _ => [{ value := "2", name := "A" }])
        (fun _ => [{ value := "3", name := "P" }])
        { completed := [], failed := ["D|A|P"] }).progress.completed ∧
    "D|A|P" ∈ (ASDDSeleniumDownloader.download_all (fun _ => true)
        [{ value := "1", name := "D" }] (fun _ => [{ value := "2", name := "A" }])
        (fun _ => [{ value := "3", name := "P" }])
        { completed := [], failed := ["D|A|P"] }).progress.failed := by
  decide

/-- C6 amended: re-encountering an already completed key is a no-op on
the ledger (the leaf is skipped, the ledger unchanged), and a key
completed at run start remains completed and is never added to the
failed list during the run (no completed-to-failed movement); the
completed and failed lists are however not disjoint in general, because
a previously failed key that later succeeds is appended to completed
without being removed from failed. -/
theorem C6_mark_idempotent_no_demotion (fetch : String → Bool)
    (districts : List Opt) (cons parts : String → List Opt) (p0 : Progress)
    (dname aname : String) (st : SelState) (part : Opt) (k : String)
    (hmem : leafKey dname aname part.name ∈ st.progress.completed)
    (h0 : k ∈ p0.completed) :
    (ASDDSeleniumDownloader.processPart fetch dname aname st part).progress = st.progress ∧
    k ∈ (ASDDSeleniumDownloader.download_all fetch districts cons parts p0).progress.completed ∧
    ((k ∈ (ASDDSeleniumDownloader.download_all fetch districts cons parts p0).progress.failed)
      ↔ k ∈ p0.failed) := by
  refine ⟨?_,
    (ASDDSeleniumDownloader.download_all_completed_stable fetch districts cons parts p0 k h0).1,
    (ASDDSeleniumDownloader.download_all_completed_stable fetch districts cons parts p0 k h0).2⟩
  rw [ASDDSeleniumDownloader.processPart_skip fetch dname aname st part hmem]

/-- C6 witness: a concrete skip step and a concrete run from a ledger
already containing the key. -/
theorem C6_witness :
    (ASDDSeleniumDownloader.processPart (fun _ => true) "D" "A"
        { progress := { completed := ["D|A|P"], failed := [] },
          stats := { districts := 0, constituencies := 0, parts := 0,
                     downloaded := 0, failed := 0 },
          trace := [] } { value := "3", name := "P" }).progress
      = { completed := ["D|A|P"], failed := [] } ∧
    "K" ∈ (ASDDSeleniumDownloader.download_all (fun _ => true)
        [{ value := "1", name := "D" }] (fun _ => [{ value := "2", name := "A" }])
        (fun _ => [{ value := "3", name := "P" }])
        { completed := ["K"], failed := [] }).progress.completed ∧
    (("K" ∈ (ASDDSeleniumDownloader.download_all (fun _ => true)
        [{ value := "1", name := "D" }] (fun _ => [{ value := "2", name := "A" }])
        (fun _ => [{ value := "3", name := "P" }])
        { completed := ["K"], failed := [] }).progress.failed)
      ↔ "K" ∈ ({ completed := ["K"], failed := [] } : Progress).failed) :=
  C6_mark_idempotent_no_demotion (fun _ => true) [{ value := "1", name := "D" }]
    (fun _ => [{ value := "2", name := "A" }]) (fun _ => [{ value := "3", name := "P" }])
    { completed := ["K"], failed := [] } "D" "A"
    { progress := { completed := ["D|A|P"], failed := [] },
      stats := { districts := 0, constituencies := 0, parts := 0,
                 downloaded := 0, failed := 0 },
      trace := [] } { value := "3", name := "P" } "K" (by decide) (by decide)

namespace ASDDSeleniumDownloader

/-- Overwrite the district counter of a controller state; the counter
is written once from the district enumeration and never read by the
traversal. -/
def setDistricts (st : SelState) (x : Nat) : SelState :=
  { st with stats := { st.stats with districts := x } }

/-- Overwriting the district counter twice keeps the last value. -/
theorem setDistricts_setDistricts (st : SelState) (x y : Nat) :
    setDistricts (setDistricts st x) y = setDistricts st y := rfl

/-- Leaf steps commute with overwriting the district counter. -/
theorem processPart_setDistricts (fetch : String → Bool) (dname aname : String)
    (st : SelState) (part : Opt) (x : Nat) :
    processPart fetch dname aname (setDistricts st x) part
      = setDistricts (processPart fetch dname aname st part) x := by
  by_cases h : leafKey dname aname part.name ∈ st.progress.completed
  · rw [processPart_skip fetch dname aname (setDistricts st x) part h,
      processPart_skip fetch dname aname st part h]
    rfl
  · cases hf : fetch (leafKey dname aname part.name) with
    | true =>
      rw [processPart_ok fetch dname aname (setDistricts st x) part h hf,
        processPart_ok fetch dname aname st part h hf]
      rfl
    | false =>
      rw [processPart_fail fetch dname aname (setDistricts st x) part h hf,
        processPart_fail fetch dname aname st part h hf]
      rfl

/-- Folds of counter-commuting steps commute with overwriting the
district counter. -/
theorem foldl_setDistricts {α : Type} (f : SelState → α → SelState)
    (hf : ∀ st a x, f (setDistricts st x) a = setDistricts (f st a) x) :
    ∀ (l : List α) (st : SelState) (x : Nat),
      l.foldl f (setDistricts st x) = setDistricts (l.foldl f st) x := by
  intro l
  induction l with
  | nil => intro st x; rfl
  | cons a as ih =>
    intro st x
    rw [List.foldl_cons, hf, ih, List.foldl_cons]

/-- Constituency steps commute with overwriting the district counter. -/
theorem processAC_setDistricts (fetch : String → Bool)
    (parts : String → List Opt) (dname : String) (st : SelState) (ac : Opt)
    (x : Nat) :
    processAC fetch parts dname (setDistricts st x) ac
      = setDistricts (processAC fetch parts dname st ac) x := by
  show (parts ac.value).foldl (processPart fetch dname ac.name)
      (setDistricts
        { st with stats := { st.stats with parts := st.stats.parts + (parts ac.value).length } } x)
    = setDistricts ((parts ac.value).foldl (processPart fetch dname ac.name)
        { st with stats := { st.stats with parts := st.stats.parts + (parts ac.value).length } }) x
  exact foldl_setDistricts (processPart fetch dname ac.name)
    (fun st' p x' => processPart_setDistricts fetch dname ac.name st' p x')
    (parts ac.value) _ x

/-- District steps commute with overwriting the district counter. -/
theorem processDistrict_setDistricts (fetch : String → Bool)
    (cons parts : String → List Opt) (st : SelState) (d : Opt) (x : Nat) :
    processDistrict fetch cons parts (setDistricts st x) d
      = setDistricts (processDistrict fetch cons parts st d) x := by
  show (cons d.value).foldl (processAC fetch parts d.name)
      (setDistricts
        { st with stats := { st.stats with constituencies := st.stats.constituencies + (cons d.value).length } } x)
    = setDistricts ((cons d.value).foldl (processAC fetch parts d.name)
        { st with stats := { st.stats with constituencies := st.stats.constituencies + (cons d.value).length } }) x
  exact foldl_setDistricts (processAC fetch parts d.name)
    (fun st' ac x' => processAC_setDistricts fetch parts d.name st' ac x')
    (cons d.value) _ x

/-- A full run is the traversal from a zeroed district counter with the
counter then set to the number of districts found. -/
theorem download_all_eq_setDistricts (fetch : String → Bool)
    (districts : List Opt) (cons parts : String → List Opt) (p0 : Progress) :
    download_all fetch districts cons parts p0
      = setDistricts
          (districts.foldl (processDistrict fetch cons parts)
            { progress := p0,
              stats := { districts := 0, constituencies := 0, parts := 0,
                         downloaded := 0, failed := 0 },
              trace := [] })
          districts.length := by
  show districts.foldl (processDistrict fetch cons parts)
      (setDistricts
        { progress := p0,
          stats := { districts := 0, constituencies := 0, parts := 0,
                     downloaded := 0, failed := 0 },
          trace := [] } districts.length) = _
  exact foldl_setDistricts (processDistrict fetch cons parts)
    (fun st d x => processDistrict_setDistricts fetch cons parts st d x)
    districts _ _

/-- A district whose constituency enumeration is empty is a no-op for
the traversal state. -/
theorem processDistrict_empty (fetch : String → Bool)
    (cons parts : String → List Opt) (d : Opt)
    (h : cons d.value = []) :
    ∀ st, processDistrict fetch cons parts st d = st := by
  intro st
  unfold processDistrict
  rw [h]
  rfl

/-- The district counter of a finished run equals the number of
districts enumerated. -/
theorem download_all_districts_count (fetch : String → Bool)
    (districts : List Opt) (cons parts : String → List Opt) (p0 : Progress) :
    (download_all fetch districts cons parts p0).stats.districts
      = districts.length := by
  rw [download_all_eq_setDistricts]
  rfl

end ASDDSeleniumDownloader

/-- C8: a district whose constituency enumeration is empty is skipped
as a recoverable anomaly — the run with that district inserted anywhere
in the enumeration has the same ledger, the same trace, and the same
downloaded, failed, constituency and part counters as the run without
it, differing only in the district counter, which still counts the
skipped district — and a leaf whose fetch fails is recorded in the
failed counter and the failed list of the ledger and flushed, after
which the traversal continues. -/
theorem C8_partial_failure_isolation (fetch : String → Bool)
    (cons parts : String → List Opt) (p0 : Progress) (pre post : List Opt)
    (d : Opt) (dname aname : String) (st : SelState) (part : Opt)
    (hempty : cons d.value = [])
    (hk : leafKey dname aname part.name ∉ st.progress.completed)
    (hf : fetch (leafKey dname aname part.name) = false) :
    (ASDDSeleniumDownloader.download_all fetch (pre ++ d :: post) cons parts p0).progress
        = (ASDDSeleniumDownloader.download_all fetch (pre ++ post) cons parts p0).progress ∧
    (ASDDSeleniumDownloader.download_all fetch (pre ++ d :: post) cons parts p0).trace
        = (ASDDSeleniumDownloader.download_all fetch (pre ++ post) cons parts p0).trace ∧
    (ASDDSeleniumDownloader.download_all fetch (pre ++ d :: post) cons parts p0).stats.downloaded
        = (ASDDSeleniumDownloader.download_all fetch (pre ++ post) cons parts p0).stats.downloaded ∧
    (ASDDSeleniumDownloader.download_all fetch (pre ++ d :: post) cons parts p0).stats.failed
        = (ASDDSeleniumDownloader.download_all fetch (pre ++ post) cons parts p0).stats.failed ∧
    (ASDDSeleniumDownloader.download_all fetch (pre ++ d :: post) cons parts p0).stats.constituencies
        = (ASDDSeleniumDownloader.download_all fetch (pre ++ post) cons parts p0).stats.constituencies ∧
    (ASDDSeleniumDownloader.download_all fetch (pre ++ d :: post) cons parts p0).stats.parts
        = (ASDDSeleniumDownloader.download_all fetch (pre ++ post) cons parts p0).stats.parts ∧
    (ASDDSeleniumDownloader.download_all fetch (pre ++ d :: post) cons parts p0).stats.districts
        = (ASDDSeleniumDownloader.download_all fetch (pre ++ post) cons parts p0).stats.districts + 1 ∧
    ASDDSeleniumDownloader.processPart fetch dname aname st part
      = { progress := { st.progress with
            failed := st.progress.failed ++ [leafKey dname aname part.name] },
          stats := { st.stats with failed := st.stats.failed + 1 },
          trace := st.trace ++ [Event.fetch (leafKey dname aname part.name) false,
            Event.flush { st.progress with
              failed := st.progress.failed ++ [leafKey dname aname part.name] }] } := by
  have hfold : (pre ++ d :: post).foldl
        (ASDDSeleniumDownloader.processDistrict fetch cons parts)
        { progress := p0,
          stats := { districts := 0, constituencies := 0, parts := 0,
                     downloaded := 0, failed := 0 },
          trace := [] }
      = (pre ++ post).foldl
        (ASDDSeleniumDownloader.processDistrict fetch cons parts)
        { progress := p0,
          stats := { districts := 0, constituencies := 0, parts := 0,
                     downloaded := 0, failed := 0 },
          trace := [] } := by
    rw [List.foldl_append, List.foldl_cons,
      ASDDSeleniumDownloader.processDistrict_empty fetch cons parts d hempty,
      ← List.foldl_append]
  have hlen : (pre ++ d :: post).length = (pre ++ post).length + 1 := by
    simp [List.length_append]
    omega
  have hins : ASDDSeleniumDownloader.download_all fetch (pre ++ d :: post) cons parts p0
      = ASDDSeleniumDownloader.setDistricts
          (ASDDSeleniumDownloader.download_all fetch (pre ++ post) cons parts p0)
          ((pre ++ post).length + 1) := by
    rw [ASDDSeleniumDownloader.download_all_eq_setDistricts fetch (pre ++ d :: post) cons parts p0,
      ASDDSeleniumDownloader.download_all_eq_setDistricts fetch (pre ++ post) cons parts p0,
      ASDDSeleniumDownloader.setDistricts_setDistricts, hfold, hlen]
  refine ⟨?_, ?_, ?_, ?_, ?_, ?_, ?_,
    ASDDSeleniumDownloader.processPart_fail fetch dname aname st part hk hf⟩
  · rw [hins]; rfl
  · rw [hins]; rfl
  · rw [hins]; rfl
  · rw [hins]; rfl
  · rw [hins]; rfl
  · rw [hins]; rfl
  · rw [hins,
      ASDDSeleniumDownloader.download_all_districts_count fetch (pre ++ post) cons parts p0]
    rfl

/-- C8 witness: a concrete two-district run in which the second
district has no constituencies, and a concrete failing leaf fetch. -/
theorem C8_witness :
    (ASDDSeleniumDownloader.download_all (fun _ => false)
        ([{ value := "1", name := "D" }] ++ { value := "X", name := "B" } :: [])
        (fun v => if v = "X" then [] else [{ value := "2", name := "A" }])
        (fun _ => [{ value := "3", name := "P" }]) { completed := [], failed := [] }).progress
      = (ASDDSeleniumDownloader.download_all (fun _ => false)
        ([{ value := "1", name := "D" }] ++ [])
        (fun v => if v = "X" then [] else [{ value := "2", name := "A" }])
        (fun _ => [{ value := "3", name := "P" }]) { completed := [], failed := [] }).progress ∧
    (ASDDSeleniumDownloader.download_all (fun _ => false)
        ([{ value := "1", name := "D" }] ++ { value := "X", name := "B" } :: [])
        (fun v => if v = "X" then [] else [{ value := "2", name := "A" }])
        (fun _ => [{ value := "3", name := "P" }]) { completed := [], failed := [] }).trace
      = (ASDDSeleniumDownloader.download_all (fun _ => false)
        ([{ value := "1", name := "D" }] ++ [])
        (fun v => if v = "X" then [] else [{ value := "2", name := "A" }])
        (fun _ => [{ value := "3", name := "P" }]) { completed := [], failed := [] }).trace ∧
    (ASDDSeleniumDownloader.download_all (fun _ => false)
        ([{ value := "1", name := "D" }] ++ { value := "X", name := "B" } :: [])
        (fun v => if v = "X" then [] else [{ value := "2", name := "A" }])
        (fun _ => [{ value := "3", name := "P" }]) { completed := [], failed := [] }).stats.downloaded
      = (ASDDSeleniumDownloader.download_all (fun _ => false)
        ([{ value := "1", name := "D" }] ++ [])
        (fun v => if v = "X" then [] else [{ value := "2", name := "A" }])
        (fun _ => [{ value := "3", name := "P" }]) { completed := [], failed := [] }).stats.downloaded ∧
    (ASDDSeleniumDownloader.download_all (fun _ => false)
        ([{ value := "1", name := "D" }] ++ { value := "X", name := "B" } :: [])
        (fun v => if v = "X" then [] else [{ value := "2", name := "A" }])
        (fun _ => [{ value := "3", name := "P" }]) { completed := [], failed := [] }).stats.failed
      = (ASDDSeleniumDownloader.download_all (fun _ => false)
        ([{ value := "1", name := "D" }] ++ [])
        (fun v => if v = "X" then [] else [{ value := "2", name := "A" }])
        (fun _ => [{ value := "3", name := "P" }]) { completed := [], failed := [] }).stats.failed ∧
    (ASDDSeleniumDownloader.download_all (fun _ => false)
        ([{ value := "1", name := "D" }] ++ { value := "X", name := "B" } :: [])
        (fun v => if v = "X" then [] else [{ value := "2", name := "A" }])
        (fun _ => [{ value := "3", name := "P" }]) { completed := [], failed := [] }).stats.constituencies
      = (ASDDSeleniumDownloader.download_all (fun _ => false)
        ([{ value := "1", name := "D" }] ++ [])
        (fun v => if v = "X" then [] else [{ value := "2", name := "A" }])
        (fun _ => [{ value := "3", name := "P" }]) { completed := [], failed := [] }).stats.constituencies ∧
    (ASDDSeleniumDownloader.download_all (fun _ => false)
        ([{ value := "1", name := "D" }] ++ { value := "X", name := "B" } :: [])
        (fun v => if v = "X" then [] else [{ value := "2", name := "A" }])
        (fun _ => [{ value := "3", name := "P" }]) { completed := [], failed := [] }).stats.parts
      = (ASDDSeleniumDownloader.download_all (fun _ => false)
        ([{ value := "1", name := "D" }] ++ [])
        (fun v => if v = "X" then [] else [{ value := "2", name := "A" }])
        (fun _ => [{ value := "3", name := "P" }]) { completed := [], failed := [] }).stats.parts ∧
    (ASDDSeleniumDownloader.download_all (fun _ => false)
        ([{ value := "1", name := "D" }] ++ { value := "X", name := "B" } :: [])
        (fun v => if v = "X" then [] else [{ value := "2", name := "A" }])
        (fun _ => [{ value := "3", name := "P" }]) { completed := [], failed := [] }).stats.districts
      = (ASDDSeleniumDownloader.download_all (fun _ => false)
        ([{ value := "1", name := "D" }] ++ [])
        (fun v => if v = "X" then [] else [{ value := "2", name := "A" }])
        (fun _ => [{ value := "3", name := "P" }]) { completed := [], failed := [] }).stats.districts + 1 ∧
    ASDDSeleniumDownloader.processPart (fun _ => false) "D" "A"
        { progress := { completed := [], failed := [] },
          stats := { districts := 0, constituencies := 0, parts := 0,
                     downloaded := 0, failed := 0 },
          trace := [] } { value := "3", name := "P" }
      = { progress := { completed := [], failed := ["D|A|P"] },
          stats := { districts := 0, constituencies := 0, parts := 0,
                     downloaded := 0, failed := 1 },
          trace := [Event.fetch "D|A|P" false,
            Event.flush { completed := [], failed := ["D|A|P"] }] } :=
  C8_partial_failure_isolation (fun _ => false)
    (fun v => if v = "X" then [] else [{ value := "2", name := "A" }])
    (fun _ => [{ value := "3", name := "P" }]) { completed := [], failed := [] }
    [{ value := "1", name := "D" }] [] { value := "X", name := "B" } "D" "A"
    { progress := { completed := [], failed := [] },
      stats := { districts := 0, constituencies := 0, parts := 0,
                 downloaded := 0, failed := 0 },
      trace := [] } { value := "3", name := "P" }
    (by decide) (by decide) rfl

/-- C10 witness: a concrete always-succeeding fetch writes the file and
returns True. -/
theorem C10_witness :
    ASDDDownloader.download_file (fun _ => some "pdf") [] "f" = (true, [("f", "pdf")]) := by
  have h := C10_download_file_atomic (fun _ => some "pdf") [] "f"
  rw [show (ASDDDownloader.get_page (fun _ => some "pdf") 3).1
        = Except.ok (some "pdf") from rfl] at h
  exact h.1

end ASDD
